import Mathlib

/-!
# Verification of the calendupe event-mirroring service

A shallow embedding of the calendupe repository (`update.py`, `main.py`,
`gcs.py`, `subscribe.py`) and proofs about it.

Modelling conventions:
* Calendar events are Python dictionaries in the source; they are embedded as
  association lists `Dict := List (String × Val)`.  The JSON-ish values that
  the code builds or inspects (status strings, start/end time objects,
  reminder settings, extended-property maps, recurrence rule lists) are at
  most two levels deep with string/bool leaves, so `Val` is a two-layer
  non-recursive type: a value is a primitive or an object of primitives.
* The Google Calendar provider is external (spec §6); its behaviour is
  modelled as: `insert` appends an event, assigning a fresh id; `patch`
  overwrites the top-level fields given in the body on the event with the
  given id; `delete` removes the event with the given id; a
  `privateExtendedProperty` filter on `list` keeps the events whose private
  extended-property map binds the given key to the given value.
* Python `dict[key]` raising `KeyError`, the `HttpError` with a status code,
  and the `ValueError` guards are embedded with `Except SyncErr`.
* `datetime` values are seconds since an epoch (`Int`).
-/

/-- A primitive JSON value: a string, a number, a bool, a list of strings
(recurrence rules), or a string-valued map (time objects, the private
extended-property map). -/
inductive Prim where
  | str : String → Prim
  | nat : Nat → Prim
  | bool : Bool → Prim
  | strList : List String → Prim
  | strMap : List (String × String) → Prim
deriving DecidableEq

/-- A JSON value stored under a top-level key of an event: a primitive, or an
object whose fields are primitives (e.g. `extendedProperties`, `reminders`,
`start`, `end`). -/
inductive Val where
  | prim : Prim → Val
  | obj : List (String × Prim) → Val
deriving DecidableEq

/-- A calendar event, as the Python dicts of `update.py`: an association list
from top-level field names to values.  Python dicts have unique keys; states
reachable from dict literals and assignments keep keys distinct. -/
abbrev Dict := List (String × Val)

/-- Python `d[key]` / `d.get(key)`: the value bound to `key`, if any. -/
def dlookup : Dict → String → Option Val
  | [], _ => none
  | (k, v) :: rest, key => if k = key then some v else dlookup rest key

/-- Python `d[key] = val`: replace the binding of `key` in place if present,
else append it. -/
def dset : Dict → String → Val → Dict
  | [], key, val => [(key, val)]
  | (k, v) :: rest, key, val =>
      if k = key then (key, val) :: rest else (k, v) :: dset rest key val

/-- The top-level keys of an event dict. -/
def dkeys (d : Dict) : List String := d.map Prod.fst

/-- Lookup in the string-valued maps used for private extended properties. -/
def slookup : List (String × String) → String → Option String
  | [], _ => none
  | (k, v) :: rest, key => if k = key then some v else slookup rest key


@[simp] theorem dkeys_nil : dkeys [] = [] := rfl

@[simp] theorem dkeys_cons (p : String × Val) (d : Dict) :
    dkeys (p :: d) = p.1 :: dkeys d := rfl

theorem dlookup_dset_self (d : Dict) (k : String) (v : Val) :
    dlookup (dset d k v) k = some v := by
  induction d with
  | nil => simp [dset, dlookup]
  | cons hd tl ih =>
      obtain ⟨k1, v1⟩ := hd
      by_cases h : k1 = k
      · simp [dset, h, dlookup]
      · simp [dset, h, dlookup, ih]

theorem dlookup_dset_ne (d : Dict) (k k2 : String) (v : Val) (h : k ≠ k2) :
    dlookup (dset d k v) k2 = dlookup d k2 := by
  induction d with
  | nil => simp [dset, dlookup, h]
  | cons hd tl ih =>
      obtain ⟨k1, v1⟩ := hd
      by_cases h1 : k1 = k
      · subst h1
        simp [dset, dlookup, h]
      · simp [dset, h1, dlookup, ih]

theorem mem_dkeys_dset (d : Dict) (k k2 : String) (v : Val)
    (h : k2 ∈ dkeys (dset d k v)) : k2 ∈ dkeys d ∨ k2 = k := by
  induction d with
  | nil => simpa [dset] using h
  | cons hd tl ih =>
      obtain ⟨k1, v1⟩ := hd
      by_cases h1 : k1 = k
      · subst h1
        simp only [dset, if_pos, dkeys_cons, List.mem_cons] at h ⊢
        tauto
      · simp only [dset, if_neg h1, dkeys_cons, List.mem_cons] at h ⊢
        rcases h with h | h
        · tauto
        · rcases ih h with h2 | h2 <;> tauto

theorem dkeys_nodup_dset (d : Dict) (k : String) (v : Val)
    (h : (dkeys d).Nodup) : (dkeys (dset d k v)).Nodup := by
  induction d with
  | nil => simp [dset]
  | cons hd tl ih =>
      obtain ⟨k1, v1⟩ := hd
      simp only [dkeys_cons, List.nodup_cons] at h
      by_cases h1 : k1 = k
      · subst h1
        simp only [dset, if_pos, dkeys_cons, List.nodup_cons]
        exact h
      · simp only [dset, if_neg h1, dkeys_cons, List.nodup_cons]
        refine ⟨fun hmem => ?_, ih h.2⟩
        rcases mem_dkeys_dset tl k k1 v hmem with h2 | h2
        · exact h.1 h2
        · exact h1 h2

theorem dlookup_eq_some_of_mem (d : Dict) (k : String) (v : Val)
    (hnd : (dkeys d).Nodup) (hmem : (k, v) ∈ d) : dlookup d k = some v := by
  induction d with
  | nil => simp at hmem
  | cons hd tl ih =>
      obtain ⟨k1, v1⟩ := hd
      simp only [dkeys_cons, List.nodup_cons] at hnd
      rcases List.mem_cons.mp hmem with h | h
      · injection h with e1 e2
        subst e1
        subst e2
        simp [dlookup]
      · have hk : ¬k1 = k := by
          intro hk
          subst hk
          exact hnd.1 (List.mem_map_of_mem Prod.fst h)
        simp [dlookup, hk, ih hnd.2 h]

theorem mem_of_dlookup_eq_some (d : Dict) (k : String) (v : Val)
    (h : dlookup d k = some v) : (k, v) ∈ d := by
  induction d with
  | nil => simp [dlookup] at h
  | cons hd tl ih =>
      obtain ⟨k1, v1⟩ := hd
      by_cases h1 : k1 = k
      · subst h1
        simp only [dlookup, if_pos rfl] at h
        injection h with h2
        subst h2
        exact List.mem_cons_self _ _
      · simp only [dlookup, if_neg h1] at h
        exact List.mem_cons_of_mem _ (ih h)

theorem dlookup_eq_none_of_not_mem_dkeys (d : Dict) (k : String)
    (h : k ∉ dkeys d) : dlookup d k = none := by
  induction d with
  | nil => simp [dlookup]
  | cons hd tl ih =>
      obtain ⟨k1, v1⟩ := hd
      simp only [dkeys_cons, List.mem_cons] at h
      push_neg at h
      simp [dlookup, Ne.symm h.1, ih h.2]

/-- The Google Calendar `patch` semantics: the top-level fields of `body`
overwrite the corresponding fields of `base`; other fields of `base` remain. -/
def mergeFields (base : Dict) (body : Dict) : Dict :=
  body.foldl (fun acc p => dset acc p.1 p.2) base

theorem mergeFields_nil (base : Dict) : mergeFields base [] = base := rfl

theorem mergeFields_cons (base : Dict) (k : String) (v : Val) (rest : Dict) :
    mergeFields base ((k, v) :: rest) = mergeFields (dset base k v) rest := rfl

theorem dlookup_mergeFields_not_mem (base body : Dict) (k : String)
    (h : k ∉ dkeys body) :
    dlookup (mergeFields base body) k = dlookup base k := by
  induction body generalizing base with
  | nil => simp [mergeFields_nil]
  | cons hd tl ih =>
      obtain ⟨k1, v1⟩ := hd
      simp only [dkeys_cons, List.mem_cons] at h
      push_neg at h
      rw [mergeFields_cons, ih _ h.2,
        dlookup_dset_ne _ _ _ _ (fun he => h.1 he.symm)]

theorem dlookup_mergeFields_mem (base body : Dict) (k : String) (v : Val)
    (hnd : (dkeys body).Nodup) (hmem : (k, v) ∈ body) :
    dlookup (mergeFields base body) k = some v := by
  induction body generalizing base with
  | nil => simp at hmem
  | cons hd tl ih =>
      obtain ⟨k1, v1⟩ := hd
      simp only [dkeys_cons, List.nodup_cons] at hnd
      rcases List.mem_cons.mp hmem with h | h
      · injection h with e1 e2
        subst e1
        subst e2
        rw [mergeFields_cons, dlookup_mergeFields_not_mem _ _ _ hnd.1,
          dlookup_dset_self]
      · exact mergeFields_cons _ _ _ _ ▸ ih _ hnd.2 h

/-! ## Constants and data model (`update.py` lines 12–17) -/

def MAX_PAGES : Nat := 500

def DEFAULT_TARGET_EVENT_NAME : String := "busy (personal)"

def DEFAULT_TARGET_EVENT_DESCRIPTION : String :=
  "created by <a href=\"https://github.com/rmehyde/calendupe\">calendupe</a>"

def CREATED_BY_KEY : String := "createdBy"

def CALENDUPE : String := "calendupe"

def SOURCE_EVENT_KEY : String := "sourceEventId"

/-- Errors surfaced by the embedded code: an `HttpError` carrying the
provider's status code, a Python `KeyError` on a missing dict key, and the
`ValueError` raised by the same-calendar guard. -/
inductive SyncErr where
  | http : Nat → SyncErr
  | keyError : String → SyncErr
  | valueError : SyncErr
deriving DecidableEq

/-- A source-calendar event as consumed by `source_event_to_target_event`:
the provider guarantees an `id`; `status` may be absent (the transform
defaults it to `"confirmed"`); `start`/`end` are the time objects read when
the event is not cancelled; `recurrence` is optional. -/
structure SourceEvent where
  id : String
  status : Option Val
  start : Val
  «end» : Val
  recurrence : Option Val
deriving DecidableEq

/-- The `reminders` value built at `update.py` line 95:
`{'useDefault': False, 'overrides': []}`. -/
def remindersOff : Val := .obj [("useDefault", .bool false), ("overrides", .strList [])]

/-- The `extendedProperties` value built at `update.py` lines 99–103:
`{'private': {'createdBy': 'calendupe', 'sourceEventId': <id>}}`. -/
def extProps (source_id : String) : Val :=
  .obj [("private", .strMap [(CREATED_BY_KEY, CALENDUPE), (SOURCE_EVENT_KEY, source_id)])]

/-- The transform `source_event_to_target_event` (`update.py` lines 80–104), with the
`title` and `description` parameters explicit. -/
def source_event_to_target_event_w (source_event : SourceEvent)
    (title description : String) : Dict :=
  let status : Val := source_event.status.getD (.prim (.str "confirmed"))
  let target_event : Dict := [("status", status)]
  let target_event :=
    if status ≠ .prim (.str "cancelled") then
      dset (dset (dset (dset (dset target_event
        "start" source_event.start)
        "end" source_event.«end»)
        "summary" (.prim (.str title)))
        "description" (.prim (.str description)))
        "reminders" remindersOff
    else target_event
  let target_event :=
    match source_event.recurrence with
    | some r => dset target_event "recurrence" r
    | none => target_event
  dset target_event "extendedProperties" (extProps source_event.id)

/-- The transform with its default `title`/`description`
arguments, as called by `duplicate_events`. -/
def source_event_to_target_event (source_event : SourceEvent) : Dict :=
  source_event_to_target_event_w source_event
    DEFAULT_TARGET_EVENT_NAME DEFAULT_TARGET_EVENT_DESCRIPTION

/-! ## The provider-side target calendar (spec §6)

The target calendar is a list of stored events in the provider's listing
order.  `insert` appends, `patch` overwrites given top-level fields in place,
`delete` removes.  A `privateExtendedProperty` `list` filter keeps events
whose private extended-property map binds the key to the value. -/

/-- Does a stored event carry private extended property `key = value`?
This is the provider's `privateExtendedProperty` filter. -/
def hasPrivateProp (e : Dict) (key value : String) : Bool :=
  match dlookup e "extendedProperties" with
  | some (.obj fields) =>
      match fields.lookup "private" with
      | some (.strMap priv) => slookup priv key = some value
      | _ => false
  | _ => false

/-- The provider's fresh-id assignment for `insert`: one more than the
largest numeric id in use, so it collides with no stored id. -/
def freshIdNat (evs : List Dict) : Nat :=
  evs.foldr
    (fun e acc =>
      match dlookup e "id" with
      | some (.prim (.nat n)) => max (n + 1) acc
      | _ => acc)
    0

/-- Function `create_event` (`update.py` lines 61–62): the provider stores the body,
assigning a fresh id. -/
def create_event (cal : List Dict) (event : Dict) : List Dict :=
  cal ++ [dset event "id" (.prim (.nat (freshIdNat cal)))]

/-- The provider's `patch`: overwrite the top-level fields of `body` on the
first stored event whose id is `idv` (provider ids are unique). -/
def patchById (cal : List Dict) (idv : Val) (body : Dict) : List Dict :=
  match cal with
  | [] => []
  | e :: rest =>
      if dlookup e "id" = some idv then mergeFields e body :: rest
      else e :: patchById rest idv body

/-- The provider's `delete`: remove the first stored event whose id is `idv`
(provider ids are unique). -/
def deleteById (cal : List Dict) (idv : Val) : List Dict :=
  match cal with
  | [] => []
  | e :: rest => if dlookup e "id" = some idv then rest else e :: deleteById rest idv

/-- Function `fetch_target_event` (`update.py` lines 107–124): list the target
calendar filtered by `sourceEventId=<source_event_id>` and return the first
match, or `None` when there is none (a multi-match logs a warning and still
uses the first). -/
def fetch_target_event (cal : List Dict) (source_event_id : String) : Option Dict :=
  (cal.filter (fun e => hasPrivateProp e SOURCE_EVENT_KEY source_event_id)).head?

/-! ## The reconciliation pass (`update.py` lines 127–186) -/

/-- The inner comparison loop of `duplicate_events` (lines 173–177): walk the
keys of the expected target event; a key missing from the existing event
raises `KeyError`; a differing value means no match. -/
def existingMatches : Dict → Dict → Except SyncErr Bool
  | [], _ => .ok true
  | (target_key, v) :: rest, existing_target_event =>
      match dlookup existing_target_event target_key with
      | none => .error (.keyError target_key)
      | some w => if w ≠ v then .ok false else existingMatches rest existing_target_event

/-- One iteration of the `for source_event in events` loop of
`duplicate_events` (lines 160–183), acting on the target calendar; returns
the new calendar and the increments of `created_count` / `updated_count`. -/
def reconcileOne (cal : List Dict) (source_event : SourceEvent) :
    Except SyncErr (List Dict × Nat × Nat) :=
  let expected_target_event := source_event_to_target_event source_event
  match fetch_target_event cal source_event.id with
  | none =>
      if dlookup expected_target_event "status" = some (.prim (.str "cancelled")) then
        .ok (cal, 0, 0)
      else
        .ok (create_event cal expected_target_event, 1, 0)
  | some existing_target_event =>
      match existingMatches expected_target_event existing_target_event with
      | .error e => .error e
      | .ok true => .ok (cal, 0, 0)
      | .ok false =>
          match dlookup existing_target_event "id" with
          | none => .error (.keyError "id")
          | some idv =>
              .ok (patchById cal idv (dset expected_target_event "id" idv), 0, 1)

/-- The whole `for source_event in events` loop, threading the calendar and
the two counters. -/
def runEvents : List SourceEvent → List Dict → Nat → Nat →
    Except SyncErr (List Dict × Nat × Nat)
  | [], cal, created_count, updated_count => .ok (cal, created_count, updated_count)
  | source_event :: rest, cal, created_count, updated_count =>
      match reconcileOne cal source_event with
      | .error e => .error e
      | .ok (cal2, c, u) => runEvents rest cal2 (created_count + c) (updated_count + u)

/-- The deletion loop of `delete_all_calendupe_events` (`update.py` lines
72–77): for each listed calendupe event, skip it when its status is
`"cancelled"`, otherwise delete it by id. -/
def deleteLoop : List Dict → List Dict → Except SyncErr (List Dict)
  | [], cal => .ok cal
  | event :: rest, cal =>
      match dlookup event "status" with
      | none => .error (.keyError "status")
      | some s =>
          if s ≠ .prim (.str "cancelled") then
            match dlookup event "id" with
            | none => .error (.keyError "id")
            | some idv => deleteLoop rest (deleteById cal idv)
          else deleteLoop rest cal

/-- Function `delete_all_calendupe_events` (`update.py` lines 69–77): list the target
calendar with the `createdBy=calendupe` filter, then run the deletion loop. -/
def delete_all_calendupe_events (cal : List Dict) : Except SyncErr (List Dict) :=
  deleteLoop (cal.filter (fun e => hasPrivateProp e CREATED_BY_KEY CALENDUPE)) cal

/-- Function `duplicate_events` (`update.py` lines 127–186).  `listSrc` abstracts
`list_events` on the source calendar with the fixed `min_end_time`, as a
function of the sync token sent; it returns the listed events and the next
sync token, or fails with an HTTP status code.  On a 410 the stored target
events tagged `createdBy=calendupe` are purged and the listing is retried
with no sync token; any other `HttpError` is re-raised.  The created/updated
counts, logged by the code, are returned alongside the next sync token. -/
def duplicate_events (listSrc : Option String → Except Nat (List SourceEvent × String))
    (source_calendar_address target_calendar_address : String)
    (allow_same_calendar : Bool) (sync_token : Option String) (cal : List Dict) :
    Except SyncErr (List Dict × String × Nat × Nat) :=
  if source_calendar_address = target_calendar_address ∧ ¬allow_same_calendar then
    .error .valueError
  else
    match listSrc sync_token with
    | .ok (events, next_sync_token) =>
        (runEvents events cal 0 0).map
          (fun r => (r.1, next_sync_token, r.2.1, r.2.2))
    | .error status_code =>
        if status_code = 410 then
          match delete_all_calendupe_events cal with
          | .error e => .error e
          | .ok cal2 =>
              match listSrc none with
              | .ok (events, next_sync_token) =>
                  (runEvents events cal2 0 0).map
                    (fun r => (r.1, next_sync_token, r.2.1, r.2.2))
              | .error c => .error (.http c)
        else .error (.http status_code)

/-! ## Structural facts about the transform -/

theorem transform_lookup_extendedProperties (src : SourceEvent) (t d : String) :
    dlookup (source_event_to_target_event_w src t d) "extendedProperties" =
      some (extProps src.id) := by
  unfold source_event_to_target_event_w
  exact dlookup_dset_self _ _ _

theorem transform_lookup_status (src : SourceEvent) (t d : String) :
    dlookup (source_event_to_target_event_w src t d) "status" =
      some (src.status.getD (.prim (.str "confirmed"))) := by
  unfold source_event_to_target_event_w
  rcases hr : src.recurrence with _ | r <;>
    by_cases h : (src.status.getD (Val.prim (.str "confirmed"))) = .prim (.str "cancelled") <;>
      simp [h, hr, dlookup_dset_ne, dlookup_dset_self, dlookup]

theorem transform_lookup_id (src : SourceEvent) (t d : String) :
    dlookup (source_event_to_target_event_w src t d) "id" = none := by
  unfold source_event_to_target_event_w
  rcases hr : src.recurrence with _ | r <;>
    by_cases h : (src.status.getD (Val.prim (.str "confirmed"))) = .prim (.str "cancelled") <;>
      simp [h, hr, dlookup_dset_ne, dlookup_dset_self, dlookup]

theorem transform_dkeys_nodup (src : SourceEvent) (t d : String) :
    (dkeys (source_event_to_target_event_w src t d)).Nodup := by
  unfold source_event_to_target_event_w
  rcases hr : src.recurrence with _ | r <;>
    by_cases h : (src.status.getD (Val.prim (.str "confirmed"))) = .prim (.str "cancelled") <;>
      simp [h, hr] <;>
      apply dkeys_nodup_dset <;>
      repeat' apply dkeys_nodup_dset
  all_goals simp [dkeys]

/-! ## Lemmas about the provider filter and listing -/

theorem hasPrivateProp_of_lookup_extProps (e : Dict) (sid v : String)
    (h : dlookup e "extendedProperties" = some (extProps sid)) :
    hasPrivateProp e SOURCE_EVENT_KEY v = decide (sid = v) := by
  simp only [hasPrivateProp, h, extProps, CREATED_BY_KEY, CALENDUPE, SOURCE_EVENT_KEY,
    List.lookup, slookup]
  by_cases hv : sid = v <;> simp [hv, slookup]

theorem hasPrivateProp_unique (e : Dict) (key v v' : String)
    (h : hasPrivateProp e key v = true) (h' : hasPrivateProp e key v' = true) :
    v = v' := by
  rcases he : dlookup e "extendedProperties" with _ | val <;>
    simp only [hasPrivateProp, he] at h h'
  · exact absurd h (by simp)
  · rcases val with p | fields
    · exact absurd h (by simp)
    · simp only [] at h h'
      rcases hf : fields.lookup "private" with _ | pv <;> rw [hf] at h h'
      · exact absurd h (by simp)
      · rcases pv with s | n | b | l | priv <;> simp at h h'
        rw [h] at h'
        exact Option.some_injective _ (by rw [h'])

theorem fetch_cons (e : Dict) (rest : List Dict) (sid : String) :
    fetch_target_event (e :: rest) sid =
      if hasPrivateProp e SOURCE_EVENT_KEY sid then some e
      else fetch_target_event rest sid := by
  by_cases h : hasPrivateProp e SOURCE_EVENT_KEY sid <;>
    simp [fetch_target_event, List.filter, h]

theorem fetch_mem (cal : List Dict) (sid : String) (e : Dict)
    (h : fetch_target_event cal sid = some e) :
    e ∈ cal ∧ hasPrivateProp e SOURCE_EVENT_KEY sid = true := by
  induction cal with
  | nil => simp [fetch_target_event] at h
  | cons hd tl ih =>
      rw [fetch_cons] at h
      by_cases hm : hasPrivateProp hd SOURCE_EVENT_KEY sid
      · rw [if_pos hm] at h
        injection h with h
        subst h
        exact ⟨List.mem_cons_self _ _, hm⟩
      · rw [if_neg hm] at h
        exact ⟨List.mem_cons_of_mem _ (ih h).1, (ih h).2⟩

theorem fetch_append_one (cal : List Dict) (x : Dict) (sid : String) :
    fetch_target_event (cal ++ [x]) sid =
      match fetch_target_event cal sid with
      | some e => some e
      | none => if hasPrivateProp x SOURCE_EVENT_KEY sid then some x else none := by
  induction cal with
  | nil => simp [fetch_cons, fetch_target_event]
  | cons hd tl ih =>
      rw [List.cons_append, fetch_cons, fetch_cons]
      by_cases hm : hasPrivateProp hd SOURCE_EVENT_KEY sid <;> simp [hm, ih]

/-- The provider invariant on a stored calendar: every event has an `id`, and
ids are pairwise distinct. -/
def IdsOk (cal : List Dict) : Prop :=
  (cal.map (fun e => dlookup e "id")).Nodup ∧ ∀ e ∈ cal, (dlookup e "id").isSome

instance (cal : List Dict) : Decidable (IdsOk cal) := by
  unfold IdsOk
  infer_instance

theorem IdsOk_tail (e : Dict) (cal : List Dict) (h : IdsOk (e :: cal)) : IdsOk cal :=
  ⟨(List.nodup_cons.mp h.1).2, fun x hx => h.2 x (List.mem_cons_of_mem _ hx)⟩

theorem freshIdNat_cons (e : Dict) (cal : List Dict) :
    freshIdNat (e :: cal) =
      match dlookup e "id" with
      | some (.prim (.nat n)) => max (n + 1) (freshIdNat cal)
      | _ => freshIdNat cal := rfl

theorem lt_freshIdNat_of_mem (cal : List Dict) (e : Dict) (n : Nat)
    (hmem : e ∈ cal) (hid : dlookup e "id" = some (.prim (.nat n))) :
    n < freshIdNat cal := by
  induction cal with
  | nil => simp at hmem
  | cons hd tl ih =>
      rw [freshIdNat_cons]
      rcases List.mem_cons.mp hmem with h | h
      · subst h
        rw [hid]
        exact lt_max_iff.mpr (Or.inl (Nat.lt_succ_self n))
      · have hlt := ih h
        rcases hhd : dlookup hd "id" with _ | v
        · exact hlt
        · rcases v with p | o
          · rcases p with s | m | b | l | sm
            · exact hlt
            · exact lt_max_iff.mpr (Or.inr hlt)
            · exact hlt
            · exact hlt
            · exact hlt
          · exact hlt

theorem freshId_not_used (cal : List Dict) (e : Dict) (hmem : e ∈ cal) :
    dlookup e "id" ≠ some (.prim (.nat (freshIdNat cal))) := by
  intro h
  exact absurd (lt_freshIdNat_of_mem cal e _ hmem h) (lt_irrefl _)

theorem IdsOk_create (cal : List Dict) (body : Dict) (h : IdsOk cal) :
    IdsOk (create_event cal body) := by
  unfold create_event
  constructor
  · rw [List.map_append, List.nodup_append]
    refine ⟨h.1, by simp, fun x hx => ?_⟩
    simp only [List.map_cons, List.map_nil, List.mem_singleton]
    intro hx1
    rcases List.mem_map.mp hx with ⟨e, hmem, rfl⟩
    rw [dlookup_dset_self] at hx1
    exact freshId_not_used cal e hmem hx1
  · intro e he
    rcases List.mem_append.mp he with h1 | h1
    · exact h.2 e h1
    · rcases List.mem_singleton.mp h1 with rfl
      simp [dlookup_dset_self]

theorem patchById_cons (e : Dict) (rest : List Dict) (idv : Val) (body : Dict) :
    patchById (e :: rest) idv body =
      if dlookup e "id" = some idv then mergeFields e body :: rest
      else e :: patchById rest idv body := rfl

theorem deleteById_cons (e : Dict) (rest : List Dict) (idv : Val) :
    deleteById (e :: rest) idv =
      if dlookup e "id" = some idv then rest else e :: deleteById rest idv := rfl

theorem patch_spec (cal : List Dict) (sid : String) (e : Dict) (idv : Val) (body : Dict)
    (hIds : IdsOk cal)
    (hfetch : fetch_target_event cal sid = some e)
    (hid : dlookup e "id" = some idv)
    (hm : hasPrivateProp (mergeFields e body) SOURCE_EVENT_KEY sid = true)
    (hbid : dlookup (mergeFields e body) "id" = some idv) :
    fetch_target_event (patchById cal idv body) sid = some (mergeFields e body) ∧
    (∀ sid2, sid2 ≠ sid →
      fetch_target_event (patchById cal idv body) sid2 = fetch_target_event cal sid2) ∧
    (patchById cal idv body).map (fun x => dlookup x "id") =
      cal.map (fun x => dlookup x "id") := by
  induction cal with
  | nil => simp [fetch_target_event] at hfetch
  | cons hd tl ih =>
      rw [fetch_cons] at hfetch
      by_cases hmatch : hasPrivateProp hd SOURCE_EVENT_KEY sid
      · rw [if_pos hmatch] at hfetch
        injection hfetch with heq
        subst heq
        have hpatch : patchById (hd :: tl) idv body = mergeFields hd body :: tl := by
          rw [patchById_cons, if_pos hid]
        refine ⟨?_, fun sid2 hne => ?_, ?_⟩
        · rw [hpatch, fetch_cons, if_pos hm]
        · have hno : hasPrivateProp hd SOURCE_EVENT_KEY sid2 = false := by
            by_contra hc
            exact hne (hasPrivateProp_unique hd _ _ _ (Bool.of_not_eq_false hc) hmatch)
          have hno2 : hasPrivateProp (mergeFields hd body) SOURCE_EVENT_KEY sid2 = false := by
            by_contra hc
            exact hne (hasPrivateProp_unique _ _ _ _ (Bool.of_not_eq_false hc) hm)
          rw [hpatch, fetch_cons, fetch_cons, hno, hno2]
          simp
        · rw [hpatch, List.map_cons, List.map_cons, hbid, hid]
      · rw [if_neg hmatch] at hfetch
        have hmem := (fetch_mem tl sid e hfetch).1
        have hne : dlookup hd "id" ≠ some idv := by
          intro hc
          have h1 : dlookup hd "id" ∈ tl.map (fun x => dlookup x "id") :=
            hc ▸ hid ▸ List.mem_map_of_mem _ hmem
          exact (List.nodup_cons.mp hIds.1).1 h1
        have hpatch : patchById (hd :: tl) idv body = hd :: patchById tl idv body := by
          rw [patchById_cons, if_neg hne]
        obtain ⟨ih1, ih2, ih3⟩ := ih (IdsOk_tail hd tl hIds) hfetch
        refine ⟨?_, fun sid2 hne2 => ?_, ?_⟩
        · rw [hpatch, fetch_cons, if_neg hmatch, ih1]
        · rw [hpatch, fetch_cons, fetch_cons]
          by_cases hm2 : hasPrivateProp hd SOURCE_EVENT_KEY sid2
          · rw [if_pos hm2, if_pos hm2]
          · rw [if_neg hm2, if_neg hm2, ih2 sid2 hne2]
        · rw [hpatch, List.map_cons, List.map_cons, ih3]

theorem create_spec (cal : List Dict) (body : Dict) (sid : String)
    (hsid : hasPrivateProp (dset body "id" (.prim (.nat (freshIdNat cal))))
      SOURCE_EVENT_KEY sid = true)
    (hnone : fetch_target_event cal sid = none) :
    fetch_target_event (create_event cal body) sid =
      some (dset body "id" (.prim (.nat (freshIdNat cal)))) ∧
    (∀ sid2, sid2 ≠ sid →
      fetch_target_event (create_event cal body) sid2 = fetch_target_event cal sid2) := by
  constructor
  · rw [create_event, fetch_append_one, hnone, hsid]
    simp
  · intro sid2 hne
    have hno : hasPrivateProp (dset body "id" (.prim (.nat (freshIdNat cal))))
        SOURCE_EVENT_KEY sid2 = false := by
      by_contra hc
      exact hne (hasPrivateProp_unique _ _ _ _ (Bool.of_not_eq_false hc) hsid)
    rw [create_event, fetch_append_one, hno]
    rcases fetch_target_event cal sid2 with _ | x <;> simp

theorem existingMatches_of_all_eq (expected existing : Dict)
    (h : ∀ p ∈ expected, dlookup existing p.1 = some p.2) :
    existingMatches expected existing = .ok true := by
  induction expected with
  | nil => rfl
  | cons hd tl ih =>
      obtain ⟨k, v⟩ := hd
      have hk := h (k, v) (List.mem_cons_self _ _)
      unfold existingMatches
      rw [hk]
      show (if v ≠ v then Except.ok false else existingMatches tl existing) = Except.ok true
      rw [if_neg (by simp)]
      exact ih (fun p hp => h p (List.mem_cons_of_mem _ hp))

theorem existingMatches_of_present_diff (expected existing : Dict)
    (hpres : ∀ p ∈ expected, (dlookup existing p.1).isSome)
    (hdiff : ∃ p ∈ expected, dlookup existing p.1 ≠ some p.2) :
    existingMatches expected existing = .ok false := by
  induction expected with
  | nil => simp at hdiff
  | cons hd tl ih =>
      obtain ⟨k, v⟩ := hd
      rcases ho : dlookup existing k with _ | w
      · exact absurd (ho ▸ hpres (k, v) (List.mem_cons_self _ _)) (by simp)
      · unfold existingMatches
        rw [ho]
        by_cases hw : w = v
        · subst hw
          show (if w ≠ w then Except.ok false else existingMatches tl existing) = Except.ok false
          rw [if_neg (by simp)]
          rcases hdiff with ⟨p, hp, hpd⟩
          rcases List.mem_cons.mp hp with h1 | h1
          · rw [h1] at hpd
            exact absurd ho hpd
          · exact ih (fun q hq => hpres q (List.mem_cons_of_mem _ hq)) ⟨p, h1, hpd⟩
        · simp [hw]

theorem all_eq_of_existingMatches_ok_true (expected existing : Dict)
    (h : existingMatches expected existing = .ok true) :
    ∀ p ∈ expected, dlookup existing p.1 = some p.2 := by
  induction expected with
  | nil => simp
  | cons hd tl ih =>
      obtain ⟨k, v⟩ := hd
      unfold existingMatches at h
      rcases ho : dlookup existing k with _ | w <;> rw [ho] at h
      · exact absurd h (by simp)
      · replace h : (if w ≠ v then Except.ok false else existingMatches tl existing) =
            Except.ok true := h
        by_cases hw : w = v
        · subst hw
          rw [if_neg (by simp)] at h
          intro p hp
          rcases List.mem_cons.mp hp with h1 | h1
          · rw [h1]
            exact ho
          · exact ih h p h1
        · rw [if_pos hw] at h
          exact absurd h (by simp)

theorem isSome_dlookup_of_mem_dkeys (d : Dict) (k : String) (h : k ∈ dkeys d) :
    (dlookup d k).isSome := by
  induction d with
  | nil => simp at h
  | cons hd tl ih =>
      obtain ⟨k1, v1⟩ := hd
      by_cases h1 : k1 = k
      · simp [dlookup, h1]
      · rcases List.mem_cons.mp h with h2 | h2
        · exact absurd h2.symm h1
        · simp [dlookup, h1, ih h2]

theorem transform_key_ne_id (src : SourceEvent) (p : String × Val)
    (hp : p ∈ source_event_to_target_event src) : p.1 ≠ "id" := by
  intro he
  have h1 : (dlookup (source_event_to_target_event src) "id").isSome :=
    isSome_dlookup_of_mem_dkeys _ _ (he ▸ List.mem_map_of_mem Prod.fst hp)
  rw [source_event_to_target_event, transform_lookup_id] at h1
  simp at h1

/-- A source event is settled on a target calendar when re-reconciling it
would write nothing: either the fetched linked target event agrees with the
transform on every field the transform produces, or there is no linked
target event and the transform is in cancelled state. -/
def Settled (cal : List Dict) (src : SourceEvent) : Prop :=
  (∃ e, fetch_target_event cal src.id = some e ∧
     ∀ p ∈ source_event_to_target_event src, dlookup e p.1 = some p.2) ∨
  (fetch_target_event cal src.id = none ∧
     dlookup (source_event_to_target_event src) "status" = some (.prim (.str "cancelled")))

theorem reconcileOne_of_settled (cal : List Dict) (src : SourceEvent)
    (h : Settled cal src) : reconcileOne cal src = .ok (cal, 0, 0) := by
  rcases h with ⟨e, hf, hall⟩ | ⟨hn, hc⟩
  · simp only [reconcileOne, hf, existingMatches_of_all_eq _ _ hall]
  · simp only [reconcileOne, hn]
    rw [if_pos hc]

theorem transformD_lookup_extendedProperties (src : SourceEvent) :
    dlookup (source_event_to_target_event src) "extendedProperties" =
      some (extProps src.id) :=
  transform_lookup_extendedProperties src _ _

theorem transformD_lookup_status (src : SourceEvent) :
    dlookup (source_event_to_target_event src) "status" =
      some (src.status.getD (.prim (.str "confirmed"))) :=
  transform_lookup_status src _ _

theorem transformD_dkeys_nodup (src : SourceEvent) :
    (dkeys (source_event_to_target_event src)).Nodup :=
  transform_dkeys_nodup src _ _

theorem reconcileOne_step (cal : List Dict) (src : SourceEvent) (cal2 : List Dict)
    (c u : Nat) (hIds : IdsOk cal) (h : reconcileOne cal src = .ok (cal2, c, u)) :
    IdsOk cal2 ∧ Settled cal2 src ∧
    (∀ sid2, sid2 ≠ src.id →
      fetch_target_event cal2 sid2 = fetch_target_event cal sid2) := by
  have hndD : (dkeys (source_event_to_target_event src)).Nodup := transformD_dkeys_nodup src
  simp only [reconcileOne] at h
  rcases hfe : fetch_target_event cal src.id with _ | ex <;> rw [hfe] at h
  · replace h :
        (if dlookup (source_event_to_target_event src) "status" =
            some (Val.prim (.str "cancelled")) then
          (Except.ok (cal, 0, 0) : Except SyncErr (List Dict × Nat × Nat))
        else
          Except.ok (create_event cal (source_event_to_target_event src), 1, 0)) =
        Except.ok (cal2, c, u) := h
    by_cases hc : dlookup (source_event_to_target_event src) "status" =
        some (Val.prim (.str "cancelled"))
    · rw [if_pos hc] at h
      simp only [Except.ok.injEq, Prod.mk.injEq] at h
      obtain ⟨rfl, rfl, rfl⟩ := h
      exact ⟨hIds, Or.inr ⟨hfe, hc⟩, fun _ _ => rfl⟩
    · rw [if_neg hc] at h
      simp only [Except.ok.injEq, Prod.mk.injEq] at h
      obtain ⟨rfl, rfl, rfl⟩ := h
      have hex : dlookup (dset (source_event_to_target_event src) "id"
          (.prim (.nat (freshIdNat cal)))) "extendedProperties" = some (extProps src.id) := by
        rw [dlookup_dset_ne _ _ _ _ (by simp), transformD_lookup_extendedProperties]
      have hsid : hasPrivateProp (dset (source_event_to_target_event src) "id"
          (.prim (.nat (freshIdNat cal)))) SOURCE_EVENT_KEY src.id = true := by
        rw [hasPrivateProp_of_lookup_extProps _ _ _ hex]
        simp
      obtain ⟨hf2, hframe⟩ := create_spec cal (source_event_to_target_event src) src.id hsid hfe
      refine ⟨IdsOk_create cal _ hIds, Or.inl ⟨_, hf2, fun p hp => ?_⟩, hframe⟩
      rw [dlookup_dset_ne _ _ _ _ (fun hh => transform_key_ne_id src p hp hh.symm)]
      exact dlookup_eq_some_of_mem _ _ _ hndD hp
  · replace h :
        (match existingMatches (source_event_to_target_event src) ex with
          | Except.error e => (Except.error e : Except SyncErr (List Dict × Nat × Nat))
          | Except.ok true => Except.ok (cal, 0, 0)
          | Except.ok false =>
              match dlookup ex "id" with
              | none => Except.error (SyncErr.keyError "id")
              | some idv =>
                  Except.ok
                    (patchById cal idv (dset (source_event_to_target_event src) "id" idv),
                      0, 1)) = Except.ok (cal2, c, u) := h
    rcases hem : existingMatches (source_event_to_target_event src) ex with er | b <;>
      rw [hem] at h
    · exact absurd h (by simp)
    · rcases b with _ | _
      · rcases hid : dlookup ex "id" with _ | idv <;> rw [hid] at h
        · exact absurd h (by simp)
        · simp only [Except.ok.injEq, Prod.mk.injEq] at h
          obtain ⟨rfl, rfl, rfl⟩ := h
          have hbnd : (dkeys (dset (source_event_to_target_event src) "id" idv)).Nodup :=
            dkeys_nodup_dset _ _ _ hndD
          have hmemid : ("id", idv) ∈ dset (source_event_to_target_event src) "id" idv :=
            mem_of_dlookup_eq_some _ _ _ (dlookup_dset_self _ _ _)
          have hbid : dlookup (mergeFields ex (dset (source_event_to_target_event src)
              "id" idv)) "id" = some idv :=
            dlookup_mergeFields_mem _ _ _ _ hbnd hmemid
          have hmemx : ("extendedProperties", extProps src.id) ∈
              dset (source_event_to_target_event src) "id" idv := by
            apply mem_of_dlookup_eq_some
            rw [dlookup_dset_ne _ _ _ _ (by simp), transformD_lookup_extendedProperties]
          have hmx : dlookup (mergeFields ex (dset (source_event_to_target_event src)
              "id" idv)) "extendedProperties" = some (extProps src.id) :=
            dlookup_mergeFields_mem _ _ _ _ hbnd hmemx
          have hm : hasPrivateProp (mergeFields ex (dset (source_event_to_target_event src)
              "id" idv)) SOURCE_EVENT_KEY src.id = true := by
            rw [hasPrivateProp_of_lookup_extProps _ _ _ hmx]
            simp
          obtain ⟨hp1, hp2, hp3⟩ :=
            patch_spec cal src.id ex idv (dset (source_event_to_target_event src) "id" idv)
              hIds hfe hid hm hbid
          refine ⟨⟨hp3 ▸ hIds.1, fun e2 he2 => ?_⟩, Or.inl ⟨_, hp1, fun p hp => ?_⟩, hp2⟩
          · have hmm : dlookup e2 "id" ∈
                (patchById cal idv (dset (source_event_to_target_event src) "id" idv)).map
                  (fun x => dlookup x "id") :=
              List.mem_map_of_mem _ he2
            rw [hp3] at hmm
            rcases List.mem_map.mp hmm with ⟨e3, hm3, h3eq⟩
            rw [← h3eq]
            exact hIds.2 e3 hm3
          · apply dlookup_mergeFields_mem _ _ _ _ hbnd
            apply mem_of_dlookup_eq_some
            rw [dlookup_dset_ne _ _ _ _ (fun hh => transform_key_ne_id src p hp hh.symm)]
            exact dlookup_eq_some_of_mem _ _ _ hndD hp
      · simp only [Except.ok.injEq, Prod.mk.injEq] at h
        obtain ⟨rfl, rfl, rfl⟩ := h
        exact ⟨hIds, Or.inl ⟨ex, hfe, all_eq_of_existingMatches_ok_true _ _ hem⟩,
          fun _ _ => rfl⟩

theorem Settled_of_fetch_eq (cal cal' : List Dict) (src : SourceEvent)
    (h : fetch_target_event cal' src.id = fetch_target_event cal src.id)
    (hs : Settled cal src) : Settled cal' src := by
  unfold Settled at hs ⊢
  rw [h]
  exact hs

theorem runEvents_cons (src : SourceEvent) (rest : List SourceEvent) (cal : List Dict)
    (c u : Nat) :
    runEvents (src :: rest) cal c u =
      match reconcileOne cal src with
      | .error e => .error e
      | .ok (cal2, cc, uu) => runEvents rest cal2 (c + cc) (u + uu) := rfl

theorem runEvents_frame (events : List SourceEvent) (cal : List Dict) (c u : Nat)
    (cal2 : List Dict) (c2 u2 : Nat) (hIds : IdsOk cal)
    (h : runEvents events cal c u = .ok (cal2, c2, u2)) :
    IdsOk cal2 ∧
    ∀ sid, (∀ src ∈ events, src.id ≠ sid) →
      fetch_target_event cal2 sid = fetch_target_event cal sid := by
  induction events generalizing cal c u with
  | nil =>
      simp only [runEvents, Except.ok.injEq, Prod.mk.injEq] at h
      obtain ⟨rfl, rfl, rfl⟩ := h
      exact ⟨hIds, fun _ _ => rfl⟩
  | cons src rest ih =>
      rw [runEvents_cons] at h
      rcases hr : reconcileOne cal src with er | ⟨calm, cc, uu⟩ <;> rw [hr] at h
      · exact absurd h (by simp)
      · obtain ⟨hIdsm, _, hframe1⟩ := reconcileOne_step cal src calm cc uu hIds hr
        obtain ⟨hIds2, hframe2⟩ := ih calm (c + cc) (u + uu) hIdsm h
        refine ⟨hIds2, fun sid hsid => ?_⟩
        rw [hframe2 sid (fun s hs => hsid s (List.mem_cons_of_mem _ hs)),
          hframe1 sid (Ne.symm (hsid src (List.mem_cons_self _ _)))]

theorem runEvents_settles (events : List SourceEvent) (cal : List Dict) (c u : Nat)
    (cal2 : List Dict) (c2 u2 : Nat) (hIds : IdsOk cal)
    (hnd : (events.map SourceEvent.id).Nodup)
    (h : runEvents events cal c u = .ok (cal2, c2, u2)) :
    IdsOk cal2 ∧ ∀ src ∈ events, Settled cal2 src := by
  induction events generalizing cal c u with
  | nil =>
      simp only [runEvents, Except.ok.injEq, Prod.mk.injEq] at h
      obtain ⟨rfl, rfl, rfl⟩ := h
      exact ⟨hIds, by simp⟩
  | cons src rest ih =>
      rw [runEvents_cons] at h
      rcases hr : reconcileOne cal src with er | ⟨calm, cc, uu⟩ <;> rw [hr] at h
      · exact absurd h (by simp)
      · obtain ⟨hIdsm, hset, _⟩ := reconcileOne_step cal src calm cc uu hIds hr
        obtain ⟨hIds2, hall⟩ :=
          ih calm (c + cc) (u + uu) hIdsm (List.nodup_cons.mp hnd).2 h
        refine ⟨hIds2, fun s hs => ?_⟩
        rcases List.mem_cons.mp hs with h1 | h1
        · subst h1
          have hne : ∀ s2 ∈ rest, s2.id ≠ s.id := by
            intro s2 hs2 he
            exact (List.nodup_cons.mp hnd).1 (he ▸ List.mem_map_of_mem SourceEvent.id hs2)
          exact Settled_of_fetch_eq calm cal2 s
            ((runEvents_frame rest calm _ _ cal2 c2 u2 hIdsm h).2 s.id hne) hset
        · exact hall s h1

theorem runEvents_of_all_settled (events : List SourceEvent) (cal : List Dict) (c u : Nat)
    (hall : ∀ src ∈ events, Settled cal src) :
    runEvents events cal c u = .ok (cal, c, u) := by
  induction events generalizing c u with
  | nil => rfl
  | cons src rest ih =>
      rw [runEvents_cons, reconcileOne_of_settled cal src (hall src (List.mem_cons_self _ _))]
      show runEvents rest cal (c + 0) (u + 0) = Except.ok (cal, c, u)
      rw [Nat.add_zero, Nat.add_zero]
      exact ih c u (fun s hs => hall s (List.mem_cons_of_mem _ hs))

/-- C4: idempotence of reconciliation.  Running `duplicate_events` twice in
succession against an unchanged source calendar (the listing returns the same
events, whose ids are distinct, and the stored target events have distinct
provider ids) performs zero creations and zero updates on the second run:
the second run returns the same target calendar with both counters zero. -/
theorem duplicate_events_idempotent
    (events : List SourceEvent) (tok : String) (srcA tgtA : String) (allow : Bool)
    (tk1 tk2 : Option String) (cal cal1 : List Dict) (tok1 : String) (c u : Nat)
    (hcal : IdsOk cal)
    (hnd : (events.map SourceEvent.id).Nodup)
    (h1 : duplicate_events (fun _ => .ok (events, tok)) srcA tgtA allow tk1 cal =
      .ok (cal1, tok1, c, u)) :
    duplicate_events (fun _ => .ok (events, tok)) srcA tgtA allow tk2 cal1 =
      .ok (cal1, tok, 0, 0) := by
  unfold duplicate_events at h1 ⊢
  by_cases hg : srcA = tgtA ∧ ¬allow = true
  · rw [if_pos hg] at h1
    exact absurd h1 (by simp)
  · rw [if_neg hg] at h1 ⊢
    replace h1 : Except.map (fun r => (r.1, tok, r.2.1, r.2.2))
        (runEvents events cal 0 0) = Except.ok (cal1, tok1, c, u) := h1
    rcases hrun : runEvents events cal 0 0 with er | ⟨calr, cr, ur⟩ <;> rw [hrun] at h1
    · exact absurd h1 (by simp [Except.map])
    · simp only [Except.map, Except.ok.injEq, Prod.mk.injEq] at h1
      obtain ⟨rfl, rfl, rfl, rfl⟩ := h1
      obtain ⟨hIds1, hall⟩ := runEvents_settles events cal 0 0 calr cr ur hcal hnd hrun
      show Except.map (fun r => (r.1, tok, r.2.1, r.2.2))
        (runEvents events calr 0 0) = Except.ok (calr, tok, 0, 0)
      rw [runEvents_of_all_settled events calr 0 0 hall]
      rfl

/-- A concrete confirmed source event used by the witnesses. -/
def wSrc : SourceEvent :=
  ⟨"e1", none, .obj [("dateTime", .str "2026-01-01T10:00:00Z")],
    .obj [("dateTime", .str "2026-01-01T11:00:00Z")], none⟩

/-- The target calendar obtained by reconciling `wSrc` against an empty
target calendar. -/
def wCal1 : List Dict := create_event [] (source_event_to_target_event wSrc)

theorem duplicate_events_idempotent_witness :
    IdsOk ([] : List Dict) ∧
    (([wSrc].map SourceEvent.id).Nodup) ∧
    duplicate_events (fun _ => .ok ([wSrc], "t")) "a" "b" false none [] =
      .ok (wCal1, "t", 1, 0) ∧
    duplicate_events (fun _ => .ok ([wSrc], "t")) "a" "b" false (some "t") wCal1 =
      .ok (wCal1, "t", 0, 0) :=
  ⟨⟨List.nodup_nil, by simp⟩, by simp,
    by rfl,
    duplicate_events_idempotent [wSrc] "t" "a" "b" false none (some "t") [] wCal1 "t" 1 0
      ⟨List.nodup_nil, by simp⟩ (by simp) (by rfl)⟩

theorem hasPrivateProp_createdBy_of_lookup_extProps (e : Dict) (sid : String)
    (h : dlookup e "extendedProperties" = some (extProps sid)) :
    hasPrivateProp e CREATED_BY_KEY CALENDUPE = true := by
  simp [hasPrivateProp, h, extProps, CREATED_BY_KEY, CALENDUPE, SOURCE_EVENT_KEY,
    List.lookup, slookup]

theorem duplicate_events_ok_listing
    (listSrc : Option String → Except Nat (List SourceEvent × String))
    (srcA tgtA : String) (allow : Bool) (tk : Option String)
    (events : List SourceEvent) (tok : String) (cal : List Dict)
    (hg : ¬(srcA = tgtA ∧ ¬allow = true))
    (hl : listSrc tk = .ok (events, tok)) :
    duplicate_events listSrc srcA tgtA allow tk cal =
      Except.map (fun r => (r.1, tok, r.2.1, r.2.2)) (runEvents events cal 0 0) := by
  unfold duplicate_events
  rw [if_neg hg, hl]

/-- C3: a listed source event with no existing linked target event is
skipped when cancelled, and otherwise becomes exactly one created target
event tagged `createdBy=calendupe` and `sourceEventId=<source id>`. -/
theorem duplicate_events_creates_when_no_target
    (src : SourceEvent) (tok srcA tgtA : String) (tk : Option String) (cal : List Dict)
    (hguard : srcA ≠ tgtA)
    (hnone : fetch_target_event cal src.id = none) :
    (src.status = some (.prim (.str "cancelled")) →
      duplicate_events (fun _ => .ok ([src], tok)) srcA tgtA false tk cal =
        .ok (cal, tok, 0, 0)) ∧
    (src.status ≠ some (.prim (.str "cancelled")) →
      duplicate_events (fun _ => .ok ([src], tok)) srcA tgtA false tk cal =
        .ok (cal ++ [dset (source_event_to_target_event src) "id"
          (.prim (.nat (freshIdNat cal)))], tok, 1, 0) ∧
      hasPrivateProp (dset (source_event_to_target_event src) "id"
        (.prim (.nat (freshIdNat cal)))) CREATED_BY_KEY CALENDUPE = true ∧
      hasPrivateProp (dset (source_event_to_target_event src) "id"
        (.prim (.nat (freshIdNat cal)))) SOURCE_EVENT_KEY src.id = true) := by
  have hg : ¬(srcA = tgtA ∧ ¬(false : Bool) = true) := fun hc => hguard hc.1
  have hmap := duplicate_events_ok_listing (fun _ => .ok ([src], tok)) srcA tgtA false tk
    [src] tok cal hg rfl
  have hex : dlookup (dset (source_event_to_target_event src) "id"
      (.prim (.nat (freshIdNat cal)))) "extendedProperties" = some (extProps src.id) := by
    rw [dlookup_dset_ne _ _ _ _ (by simp), transformD_lookup_extendedProperties]
  constructor
  · intro hc
    have hstat : dlookup (source_event_to_target_event src) "status" =
        some (.prim (.str "cancelled")) := by
      rw [transformD_lookup_status, hc]
      rfl
    have hrec : reconcileOne cal src = .ok (cal, 0, 0) := by
      simp only [reconcileOne, hnone]
      rw [if_pos hstat]
    have hre : runEvents [src] cal 0 0 = .ok (cal, 0, 0) := by
      rw [runEvents_cons, hrec]
      rfl
    rw [hmap, hre]
    rfl
  · intro hc
    have hstat : dlookup (source_event_to_target_event src) "status" ≠
        some (.prim (.str "cancelled")) := by
      rw [transformD_lookup_status]
      rcases hs : src.status with _ | v
      · simp
      · rw [hs] at hc
        simpa using hc
    have hrec : reconcileOne cal src =
        .ok (create_event cal (source_event_to_target_event src), 1, 0) := by
      simp only [reconcileOne, hnone]
      rw [if_neg hstat]
    have hre : runEvents [src] cal 0 0 =
        .ok (create_event cal (source_event_to_target_event src), 1, 0) := by
      rw [runEvents_cons, hrec]
      rfl
    refine ⟨?_, hasPrivateProp_createdBy_of_lookup_extProps _ _ hex, ?_⟩
    · rw [hmap, hre]
      rfl
    · rw [hasPrivateProp_of_lookup_extProps _ _ _ hex]
      simp

/-- A concrete target calendar holding one unrelated event, for the C3
witness: the listed source event has no linked target there. -/
def wCalOther : List Dict :=
  [[("id", Val.prim (.str "zzz")), ("status", Val.prim (.str "confirmed"))]]

theorem duplicate_events_creates_when_no_target_witness :
    ("a" : String) ≠ "b" ∧
    fetch_target_event wCalOther wSrc.id = none ∧
    (wSrc.status ≠ some (.prim (.str "cancelled")) ∧
      duplicate_events (fun _ => .ok ([wSrc], "t")) "a" "b" false none wCalOther =
        .ok (wCalOther ++ [dset (source_event_to_target_event wSrc) "id"
          (.prim (.nat (freshIdNat wCalOther)))], "t", 1, 0)) :=
  ⟨by decide, by rfl,
    by decide,
    ((duplicate_events_creates_when_no_target wSrc "t" "a" "b" none wCalOther
      (by decide) (by rfl)).2 (by decide)).1⟩

/-- C2: when an existing linked target event is found, every field produced
by the transform is compared against the existing event's value; full
agreement is a no-op, while any difference patches the existing event under
its own identifier with the freshly computed values — in particular a source
event that became cancelled after its shadow exists is patched to cancelled
status, not deleted or skipped. -/
theorem duplicate_events_updates_existing_target
    (src : SourceEvent) (tok srcA tgtA : String) (tk : Option String) (cal : List Dict)
    (ex : Dict) (idv : Val)
    (hguard : srcA ≠ tgtA)
    (hIds : IdsOk cal)
    (hfetch : fetch_target_event cal src.id = some ex)
    (hid : dlookup ex "id" = some idv) :
    ((∀ p ∈ source_event_to_target_event src, dlookup ex p.1 = some p.2) →
      duplicate_events (fun _ => .ok ([src], tok)) srcA tgtA false tk cal =
        .ok (cal, tok, 0, 0)) ∧
    ((∀ p ∈ source_event_to_target_event src, (dlookup ex p.1).isSome) →
     (∃ p ∈ source_event_to_target_event src, dlookup ex p.1 ≠ some p.2) →
      duplicate_events (fun _ => .ok ([src], tok)) srcA tgtA false tk cal =
        .ok (patchById cal idv (dset (source_event_to_target_event src) "id" idv),
          tok, 0, 1) ∧
      (patchById cal idv (dset (source_event_to_target_event src) "id" idv)).length =
        cal.length ∧
      fetch_target_event
          (patchById cal idv (dset (source_event_to_target_event src) "id" idv)) src.id =
        some (mergeFields ex (dset (source_event_to_target_event src) "id" idv)) ∧
      (∀ p ∈ source_event_to_target_event src,
        dlookup (mergeFields ex (dset (source_event_to_target_event src) "id" idv)) p.1 =
          some p.2) ∧
      dlookup (mergeFields ex (dset (source_event_to_target_event src) "id" idv)) "id" =
        some idv ∧
      (src.status = some (.prim (.str "cancelled")) →
        dlookup (mergeFields ex (dset (source_event_to_target_event src) "id" idv))
          "status" = some (.prim (.str "cancelled")))) := by
  have hndD : (dkeys (source_event_to_target_event src)).Nodup := transformD_dkeys_nodup src
  have hg : ¬(srcA = tgtA ∧ ¬(false : Bool) = true) := fun hc => hguard hc.1
  have hmap := duplicate_events_ok_listing (fun _ => .ok ([src], tok)) srcA tgtA false tk
    [src] tok cal hg rfl
  constructor
  · intro hall
    have hrec : reconcileOne cal src = .ok (cal, 0, 0) :=
      reconcileOne_of_settled cal src (Or.inl ⟨ex, hfetch, hall⟩)
    have hre : runEvents [src] cal 0 0 = .ok (cal, 0, 0) := by
      rw [runEvents_cons, hrec]
      rfl
    rw [hmap, hre]
    rfl
  · intro hpres hdiff
    have hem : existingMatches (source_event_to_target_event src) ex = .ok false :=
      existingMatches_of_present_diff _ _ hpres hdiff
    have hrec : reconcileOne cal src =
        .ok (patchById cal idv (dset (source_event_to_target_event src) "id" idv), 0, 1) := by
      simp only [reconcileOne, hfetch, hem, hid]
    have hre : runEvents [src] cal 0 0 =
        .ok (patchById cal idv (dset (source_event_to_target_event src) "id" idv), 0, 1) := by
      rw [runEvents_cons, hrec]
      rfl
    have hbnd : (dkeys (dset (source_event_to_target_event src) "id" idv)).Nodup :=
      dkeys_nodup_dset _ _ _ hndD
    have hmemid : ("id", idv) ∈ dset (source_event_to_target_event src) "id" idv :=
      mem_of_dlookup_eq_some _ _ _ (dlookup_dset_self _ _ _)
    have hbid : dlookup (mergeFields ex (dset (source_event_to_target_event src)
        "id" idv)) "id" = some idv :=
      dlookup_mergeFields_mem _ _ _ _ hbnd hmemid
    have hmemx : ("extendedProperties", extProps src.id) ∈
        dset (source_event_to_target_event src) "id" idv := by
      apply mem_of_dlookup_eq_some
      rw [dlookup_dset_ne _ _ _ _ (by simp), transformD_lookup_extendedProperties]
    have hmx : dlookup (mergeFields ex (dset (source_event_to_target_event src)
        "id" idv)) "extendedProperties" = some (extProps src.id) :=
      dlookup_mergeFields_mem _ _ _ _ hbnd hmemx
    have hm : hasPrivateProp (mergeFields ex (dset (source_event_to_target_event src)
        "id" idv)) SOURCE_EVENT_KEY src.id = true := by
      rw [hasPrivateProp_of_lookup_extProps _ _ _ hmx]
      simp
    obtain ⟨hp1, _, hp3⟩ :=
      patch_spec cal src.id ex idv (dset (source_event_to_target_event src) "id" idv)
        hIds hfetch hid hm hbid
    have hallm : ∀ p ∈ source_event_to_target_event src,
        dlookup (mergeFields ex (dset (source_event_to_target_event src) "id" idv)) p.1 =
          some p.2 := by
      intro p hp
      apply dlookup_mergeFields_mem _ _ _ _ hbnd
      apply mem_of_dlookup_eq_some
      rw [dlookup_dset_ne _ _ _ _ (fun hh => transform_key_ne_id src p hp hh.symm)]
      exact dlookup_eq_some_of_mem _ _ _ hndD hp
    refine ⟨by rw [hmap, hre]; rfl, ?_, hp1, hallm, hbid, fun hc => ?_⟩
    · have := congrArg List.length hp3
      simpa using this
    · have hstat : ("status", Val.prim (.str "cancelled")) ∈
          source_event_to_target_event src := by
        apply mem_of_dlookup_eq_some
        rw [transformD_lookup_status, hc]
        rfl
      exact hallm _ hstat

/-- The event `wSrc` after it transitioned to cancelled state on the source calendar. -/
def wSrcCancelled : SourceEvent :=
  ⟨"e1", some (.prim (.str "cancelled")), wSrc.start, wSrc.«end», none⟩

theorem duplicate_events_updates_existing_target_witness :
    ("a" : String) ≠ "b" ∧
    IdsOk wCal1 ∧
    fetch_target_event wCal1 wSrcCancelled.id =
      some (dset (source_event_to_target_event wSrc) "id" (.prim (.nat 0))) ∧
    dlookup (dset (source_event_to_target_event wSrc) "id" (.prim (.nat 0))) "id" =
      some (.prim (.nat 0)) ∧
    duplicate_events (fun _ => .ok ([wSrcCancelled], "t")) "a" "b" false (some "s") wCal1 =
      .ok (patchById wCal1 (.prim (.nat 0))
        (dset (source_event_to_target_event wSrcCancelled) "id" (.prim (.nat 0))),
        "t", 0, 1) :=
  ⟨by decide, by decide, by rfl, by rfl,
    ((duplicate_events_updates_existing_target wSrcCancelled "t" "a" "b" (some "s")
        wCal1 (dset (source_event_to_target_event wSrc) "id" (.prim (.nat 0)))
        (.prim (.nat 0)) (by decide) (by decide) (by rfl) (by rfl)).2
      (by decide) (by decide)).1⟩

theorem idOf_inj_on (cal : List Dict)
    (hnd : (cal.map (fun x => dlookup x "id")).Nodup) (x e : Dict)
    (hx : x ∈ cal) (he : e ∈ cal) (h : dlookup x "id" = dlookup e "id") : x = e :=
  List.inj_on_of_nodup_map hnd hx he h

theorem deleteById_eq_filter (cal : List Dict) (idv : Val)
    (hnd : (cal.map (fun x => dlookup x "id")).Nodup) :
    deleteById cal idv = cal.filter (fun x => !(dlookup x "id" == some idv)) := by
  induction cal with
  | nil => rfl
  | cons hd tl ih =>
      rw [deleteById_cons, List.filter_cons]
      by_cases h : dlookup hd "id" = some idv
      · rw [if_pos h]
        have hno : ∀ x ∈ tl, (!(dlookup x "id" == some idv)) = true := by
          intro x hx
          have : dlookup x "id" ≠ some idv := by
            intro hc
            have hmm : dlookup x "id" ∈ List.map (fun y => dlookup y "id") tl :=
              List.mem_map_of_mem _ hx
            rw [hc, ← h] at hmm
            exact (List.nodup_cons.mp hnd).1 hmm
          simpa using this
        rw [if_neg (by simp [h]), List.filter_eq_self.mpr hno]
      · rw [if_neg h, if_pos (by simpa using h), ih (List.nodup_cons.mp hnd).2]

theorem IdsOk_filter (cal : List Dict) (p : Dict → Bool) (h : IdsOk cal) :
    IdsOk (cal.filter p) :=
  ⟨h.1.sublist ((List.filter_sublist cal).map _),
    fun e he => h.2 e (List.mem_of_mem_filter he)⟩

theorem deleteLoop_cons (e : Dict) (rest cal : List Dict) :
    deleteLoop (e :: rest) cal =
      match dlookup e "status" with
      | none => .error (.keyError "status")
      | some s =>
          if s ≠ .prim (.str "cancelled") then
            match dlookup e "id" with
            | none => .error (.keyError "id")
            | some idv => deleteLoop rest (deleteById cal idv)
          else deleteLoop rest cal := rfl

theorem deleteLoop_spec (l : List Dict) :
    ∀ (cal : List Dict), IdsOk cal → (∀ e ∈ l, e ∈ cal) →
    ((l.map (fun x => dlookup x "id")).Nodup) →
    (∀ e ∈ l, (dlookup e "status").isSome) →
    deleteLoop l cal = .ok (cal.filter (fun x =>
      !(l.contains x && !(dlookup x "status" == some (.prim (.str "cancelled")))))) := by
  induction l with
  | nil =>
      intro cal _ _ _ _
      simp [deleteLoop, List.filter_eq_self]
  | cons e rest ih =>
      intro cal hIds hmem hnd hpres
      rcases hs : dlookup e "status" with _ | s
      · exact absurd (hs ▸ hpres e (List.mem_cons_self _ _)) (by simp)
      · have hred : deleteLoop (e :: rest) cal =
            (if s ≠ .prim (.str "cancelled") then
              match dlookup e "id" with
              | none => .error (.keyError "id")
              | some idv => deleteLoop rest (deleteById cal idv)
            else deleteLoop rest cal) := by
          rw [deleteLoop_cons, hs]
        rw [hred]
        by_cases hcan : s = .prim (.str "cancelled")
        · rw [if_neg (by simp [hcan])]
          rw [ih cal hIds (fun x hx => hmem x (List.mem_cons_of_mem _ hx))
            (List.nodup_cons.mp hnd).2 (fun x hx => hpres x (List.mem_cons_of_mem _ hx))]
          congr 1
          apply List.filter_congr
          intro x hx
          by_cases hxe : x = e
          · subst hxe
            rw [hs]
            simp [hcan]
          · simp [List.contains, List.elem_cons, hxe]
        · rw [if_pos (by simpa using hcan)]
          rcases hid : dlookup e "id" with _ | idv
          · exact absurd (hid ▸ hIds.2 e (hmem e (List.mem_cons_self _ _))) (by simp)
          · show deleteLoop rest (deleteById cal idv) = _
            rw [deleteById_eq_filter cal idv hIds.1]
            have hQ : ∀ x ∈ rest, x ∈ cal.filter (fun x => !(dlookup x "id" == some idv)) := by
              intro x hx
              refine List.mem_filter.mpr ⟨hmem x (List.mem_cons_of_mem _ hx), ?_⟩
              have : dlookup x "id" ≠ some idv := by
                intro hc
                have hmm : dlookup x "id" ∈ List.map (fun y => dlookup y "id") rest :=
                  List.mem_map_of_mem _ hx
                rw [hc, ← hid] at hmm
                exact (List.nodup_cons.mp hnd).1 hmm
              simpa using this
            rw [ih _ (IdsOk_filter cal _ hIds) hQ (List.nodup_cons.mp hnd).2
              (fun x hx => hpres x (List.mem_cons_of_mem _ hx)), List.filter_filter]
            congr 1
            apply List.filter_congr
            intro x hx
            by_cases hxe : x = e
            · subst hxe
              rw [hid, hs]
              simp [hcan]
            · have hxq : (dlookup x "id" == some idv) = false := by
                have : dlookup x "id" ≠ some idv := by
                  intro hc
                  exact hxe (idOf_inj_on cal hIds.1 x e hx
                    (hmem e (List.mem_cons_self _ _)) (hc.trans hid.symm))
                simpa using this
              simp [List.contains, List.elem_cons, hxq, hxe]

theorem delete_all_spec (cal : List Dict) (hIds : IdsOk cal)
    (hst : ∀ e ∈ cal, hasPrivateProp e CREATED_BY_KEY CALENDUPE = true →
      (dlookup e "status").isSome) :
    delete_all_calendupe_events cal = .ok (cal.filter (fun x =>
      !(hasPrivateProp x CREATED_BY_KEY CALENDUPE &&
        !(dlookup x "status" == some (.prim (.str "cancelled")))))) := by
  unfold delete_all_calendupe_events
  rw [deleteLoop_spec (cal.filter (fun e => hasPrivateProp e CREATED_BY_KEY CALENDUPE)) cal
    hIds (fun e he => List.mem_of_mem_filter he)
    (hIds.1.sublist ((List.filter_sublist cal).map _))
    (fun e he => hst e (List.mem_of_mem_filter he) ((List.mem_filter.mp he).2))]
  congr 1
  apply List.filter_congr
  intro x hx
  by_cases hc : hasPrivateProp x CREATED_BY_KEY CALENDUPE
  · have hct : (cal.filter (fun e => hasPrivateProp e CREATED_BY_KEY CALENDUPE)).contains x =
        true :=
      List.elem_eq_true_of_mem (List.mem_filter.mpr ⟨hx, hc⟩)
    rw [hct, hc]
  · have hnc : x ∉ cal.filter (fun e => hasPrivateProp e CREATED_BY_KEY CALENDUPE) :=
      fun hmem => hc ((List.mem_filter.mp hmem).2)
    have hcf : (cal.filter (fun e => hasPrivateProp e CREATED_BY_KEY CALENDUPE)).contains x =
        false := by
      by_contra hcc
      exact hnc (List.mem_of_elem_eq_true (Bool.of_not_eq_false hcc))
    rw [hcf, Bool.eq_false_iff.mpr hc]

/-- C1: a 410 ("gone") on the initial listing with a sync token makes
`duplicate_events` delete every target event tagged `createdBy=calendupe`
whose status is not cancelled, then re-list with no sync token (the
invalidated token is never sent again); any other listing failure
propagates unchanged. -/
theorem duplicate_events_sync_token_invalidated
    (listSrc : Option String → Except Nat (List SourceEvent × String))
    (srcA tgtA tok0 : String) (cal : List Dict)
    (hguard : srcA ≠ tgtA) (hIds : IdsOk cal)
    (hst : ∀ e ∈ cal, hasPrivateProp e CREATED_BY_KEY CALENDUPE = true →
      (dlookup e "status").isSome) :
    (listSrc (some tok0) = .error 410 →
      duplicate_events listSrc srcA tgtA false (some tok0) cal =
        match listSrc none with
        | .ok (events, t) =>
            Except.map (fun r => (r.1, t, r.2.1, r.2.2))
              (runEvents events (cal.filter (fun x =>
                !(hasPrivateProp x CREATED_BY_KEY CALENDUPE &&
                  !(dlookup x "status" == some (.prim (.str "cancelled")))))) 0 0)
        | .error c => .error (.http c)) ∧
    (∀ c, listSrc (some tok0) = .error c → c ≠ 410 →
      duplicate_events listSrc srcA tgtA false (some tok0) cal =
        .error (.http c)) := by
  have hg : ¬(srcA = tgtA ∧ ¬(false : Bool) = true) := fun hc => hguard hc.1
  constructor
  · intro hl
    unfold duplicate_events
    rw [if_neg hg, hl]
    show (if (410 : Nat) = 410 then
        match delete_all_calendupe_events cal with
        | Except.error e => (Except.error e : Except SyncErr (List Dict × String × Nat × Nat))
        | Except.ok cal2 =>
            match listSrc none with
            | Except.ok (events, next_sync_token) =>
                (runEvents events cal2 0 0).map
                  (fun (r : List Dict × Nat × Nat) => (r.1, next_sync_token, r.2.1, r.2.2))
            | Except.error c => Except.error (SyncErr.http c)
      else Except.error (SyncErr.http 410)) = _
    rw [if_pos rfl, delete_all_spec cal hIds hst]
  · intro c hl hne
    unfold duplicate_events
    rw [if_neg hg, hl]
    show (if c = 410 then
        match delete_all_calendupe_events cal with
        | Except.error e => (Except.error e : Except SyncErr (List Dict × String × Nat × Nat))
        | Except.ok cal2 =>
            match listSrc none with
            | Except.ok (events, next_sync_token) =>
                (runEvents events cal2 0 0).map
                  (fun (r : List Dict × Nat × Nat) => (r.1, next_sync_token, r.2.1, r.2.2))
            | Except.error c2 => Except.error (SyncErr.http c2)
      else Except.error (SyncErr.http c)) = _
    rw [if_neg hne]

/-- A concrete target calendar for the C1 witness: one non-cancelled
calendupe-tagged event (to be purged), one unrelated event, and one
already-cancelled calendupe-tagged event (to be skipped). -/
def wCalC1 : List Dict :=
  [dset (source_event_to_target_event wSrc) "id" (.prim (.nat 0)),
   [("id", Val.prim (.str "u1")), ("status", Val.prim (.str "confirmed"))],
   [("id", Val.prim (.str "c2")), ("status", Val.prim (.str "cancelled")),
    ("extendedProperties", extProps "e9")]]

/-- The listing behaviour for the C1 witness: the sync-token listing reports
410 (token invalidated), the token-free listing succeeds. -/
def wListSrc410 : Option String → Except Nat (List SourceEvent × String) :=
  fun t => match t with
    | some _ => .error 410
    | none => .ok ([], "t2")

theorem duplicate_events_sync_token_invalidated_witness :
    ("a" : String) ≠ "b" ∧
    IdsOk wCalC1 ∧
    (∀ e ∈ wCalC1, hasPrivateProp e CREATED_BY_KEY CALENDUPE = true →
      (dlookup e "status").isSome) ∧
    wListSrc410 (some "t0") = .error 410 ∧
    duplicate_events wListSrc410 "a" "b" false (some "t0") wCalC1 =
      match wListSrc410 none with
      | .ok (events, t) =>
          Except.map (fun r => (r.1, t, r.2.1, r.2.2))
            (runEvents events (wCalC1.filter (fun x =>
              !(hasPrivateProp x CREATED_BY_KEY CALENDUPE &&
                !(dlookup x "status" == some (.prim (.str "cancelled")))))) 0 0)
      | .error c => .error (.http c) :=
  ⟨by decide, by decide, by decide, rfl,
    (duplicate_events_sync_token_invalidated wListSrc410 "a" "b" "t0" wCalC1
      (by decide) (by decide) (by decide)).1 rfl⟩

/-! ## `list_events` pagination (`update.py` lines 20–58)

A provider response page carries `items`, an optional `nextPageToken` and an
optional `nextSyncToken`.  `fetch` abstracts one `events.list(...).execute()`
call with the fixed arguments of the listing, as a function of the
`pageToken` sent (`none` for the first request). -/

structure Page where
  items : List Dict
  nextPageToken : Option String
  nextSyncToken : Option String
deriving DecidableEq

/-- The `while 'nextPageToken' in response.keys() and total_pages <= MAX_PAGES`
loop of `list_events`.  `remaining` is `MAX_PAGES + 1 - total_pages`, so the
guard `total_pages <= MAX_PAGES` is `remaining > 0`; it starts at `MAX_PAGES`
with `total_pages = 1`. -/
def listPagesLoop (fetch : String → Page) (response : Page) (events : List Dict)
    (total_pages : Nat) (remaining : Nat) : List Dict × Page × Nat :=
  match response.nextPageToken with
  | none => (events, response, total_pages)
  | some tok =>
      match remaining with
      | 0 => (events, response, total_pages)
      | r + 1 =>
          let response2 := fetch tok
          listPagesLoop fetch response2 (events ++ response2.items) (total_pages + 1) r

/-- Function `list_events` (`update.py` lines 20–58): the first request, the paging
loop, and the final `response['nextSyncToken']` access (a `KeyError` when the
final response has no sync token).  Returns the concatenated events, the next
sync token and the number of pages fetched (the code logs this count). -/
def list_events (fetch : Option String → Page) :
    Except SyncErr (List Dict × String × Nat) :=
  let response := fetch none
  let r := listPagesLoop (fun tok => fetch (some tok)) response response.items 1 MAX_PAGES
  match r.2.1.nextSyncToken with
  | some next_sync_token => .ok (r.1, next_sync_token, r.2.2)
  | none => .error (.keyError "nextSyncToken")

/-- Relation `PageChain fetch resp ps last`: starting from response `resp`, following
each response's `nextPageToken` through `fetch` produces the successive
responses `ps`, ending at `last`. -/
def PageChain (fetch : String → Page) : Page → List Page → Page → Prop
  | resp, [], last => last = resp
  | resp, p :: ps, last =>
      ∃ tok, resp.nextPageToken = some tok ∧ p = fetch tok ∧ PageChain fetch p ps last

theorem listPagesLoop_spec (fetch : String → Page) :
    ∀ (r : Nat) (resp : Page) (acc : List Dict) (t : Nat),
    ∃ ps last,
      listPagesLoop fetch resp acc t r =
        (acc ++ ps.flatMap Page.items, last, t + ps.length) ∧
      PageChain fetch resp ps last ∧
      ps.length ≤ r ∧
      (last.nextPageToken = none ∨ ps.length = r) := by
  intro r
  induction r with
  | zero =>
      intro resp acc t
      refine ⟨[], resp, ?_, rfl, by simp, Or.inr rfl⟩
      unfold listPagesLoop
      rcases resp.nextPageToken with _ | tok <;> simp
  | succ r ih =>
      intro resp acc t
      rcases hn : resp.nextPageToken with _ | tok
      · refine ⟨[], resp, ?_, rfl, by simp, Or.inl hn⟩
        unfold listPagesLoop
        rw [hn]
        simp
      · obtain ⟨ps, last, hloop, hchain, hlen, hstop⟩ := ih (fetch tok) (acc ++ (fetch tok).items) (t + 1)
        refine ⟨fetch tok :: ps, last, ?_, ⟨tok, hn, rfl, hchain⟩, by simpa using hlen, ?_⟩
        · unfold listPagesLoop
          rw [hn]
          show listPagesLoop fetch (fetch tok) (acc ++ (fetch tok).items) (t + 1) r = _
          rw [hloop]
          simp only [List.flatMap_cons, List.append_assoc, List.length_cons]
          have harith : t + 1 + ps.length = t + (ps.length + 1) := by omega
          rw [harith]
        · rcases hstop with h | h
          · exact Or.inl h
          · exact Or.inr (by simp [h])

/-- C5 (amended): pages are fetched until no next-page cursor is present or
until `MAX_PAGES + 1 = 501` pages have been fetched; the returned event list
is the concatenation of the items of every fetched page, and the returned
sync token is the terminal next-sync-token of the final fetched response. -/
theorem list_events_spec (fetch : Option String → Page) (events : List Dict)
    (tok : String) (total_pages : Nat)
    (h : list_events fetch = .ok (events, tok, total_pages)) :
    ∃ ps last,
      PageChain (fun s => fetch (some s)) (fetch none) ps last ∧
      events = (fetch none).items ++ ps.flatMap Page.items ∧
      total_pages = 1 + ps.length ∧
      total_pages ≤ MAX_PAGES + 1 ∧
      last.nextSyncToken = some tok ∧
      (last.nextPageToken = none ∨ total_pages = MAX_PAGES + 1) := by
  obtain ⟨ps, last, hloop, hchain, hlen, hstop⟩ :=
    listPagesLoop_spec (fun s => fetch (some s)) MAX_PAGES (fetch none)
      (fetch none).items 1
  have hle : list_events fetch =
      match last.nextSyncToken with
      | some t => Except.ok ((fetch none).items ++ ps.flatMap Page.items, t, 1 + ps.length)
      | none => Except.error (SyncErr.keyError "nextSyncToken") := by
    simp only [list_events, hloop]
  rw [hle] at h
  rcases hsync : last.nextSyncToken with _ | t <;> rw [hsync] at h
  · exact absurd h (by simp)
  · replace h : (Except.ok ((fetch none).items ++ ps.flatMap Page.items, t, 1 + ps.length) :
        Except SyncErr (List Dict × String × Nat)) = Except.ok (events, tok, total_pages) := h
    simp only [Except.ok.injEq, Prod.mk.injEq] at h
    obtain ⟨h1, h2, h3⟩ := h
    subst h1
    subst h2
    subst h3
    refine ⟨ps, last, hchain, rfl, rfl, by omega, hsync, ?_⟩
    rcases hstop with h4 | h4
    · exact Or.inl h4
    · exact Or.inr (by omega)

/-- A provider that always returns a next-page cursor (and a sync token). -/
def wEndlessFetch : Option String → Page := fun _ => ⟨[], some "n", some "s"⟩

set_option maxRecDepth 4000 in
/-- C5 counterexample: with a cursor on every response, `list_events` fetches
501 pages, not 500 — the loop guard `total_pages <= MAX_PAGES` still admits a
fetch when 500 pages have already been fetched. -/
theorem list_events_fetches_501_pages :
    list_events wEndlessFetch = .ok ([], "s", 501) ∧ ¬(501 ≤ MAX_PAGES) := by
  constructor
  · rfl
  · decide

/-- A two-page listing for the C5 witness. -/
def wFetch2 : Option String → Page :=
  fun t => match t with
    | none => ⟨[[("id", Val.prim (.str "i1"))]], some "p2", none⟩
    | some _ => ⟨[[("id", Val.prim (.str "i2"))]], none, some "s2"⟩

theorem list_events_spec_witness :
    list_events wFetch2 =
      .ok ([[("id", Val.prim (.str "i1"))], [("id", Val.prim (.str "i2"))]], "s2", 2) ∧
    ∃ ps last,
      PageChain (fun s => wFetch2 (some s)) (wFetch2 none) ps last ∧
      [[("id", Val.prim (.str "i1"))], [("id", Val.prim (.str "i2"))]] =
        (wFetch2 none).items ++ ps.flatMap Page.items ∧
      (2 : Nat) = 1 + ps.length ∧
      (2 : Nat) ≤ MAX_PAGES + 1 ∧
      last.nextSyncToken = some "s2" ∧
      (last.nextPageToken = none ∨ (2 : Nat) = MAX_PAGES + 1) :=
  ⟨by rfl, list_events_spec wFetch2 _ "s2" 2 (by rfl)⟩

/-! ## The webhook handler (`main.py` lines 136–188) -/

/-- The JSON body of an inbound request, as far as the handler inspects it:
absent/unparsed, a JSON list, or a JSON object (string-valued fields are all
the handler reads). -/
inductive ReqJson where
  | arr : ReqJson
  | obj : List (String × String) → ReqJson
deriving DecidableEq

/-- An inbound HTTP request: headers, path, and optional JSON body. -/
structure WebRequest where
  headers : List (String × String)
  path : String
  body : Option ReqJson
deriving DecidableEq

/-- Python `request.headers.get(name, None)`. -/
def headerGet (headers : List (String × String)) (name : String) : Option String :=
  match headers with
  | [] => none
  | (k, v) :: rest => if k = name then some v else headerGet rest name

/-- The side effects the handler can trigger beyond responding: a synchronous
resubscription, scheduling a renewal task, or dispatching a reconciliation
run on a background thread. -/
inductive HookAction where
  | resubscribe : String → HookAction
  | scheduleRenewal : String → Option String → HookAction
  | dispatchUpdate : HookAction
deriving DecidableEq

/-- Python `request.path.strip("/")`. -/
def stripSlashes (path : String) : String :=
  String.mk (((path.toList.dropWhile (fun c => c == '/')).reverse.dropWhile
    (fun c => c == '/')).reverse)

/-- The `calendupe` Cloud Function handler (`main.py` lines 136–188): checks
the shared-secret header first, then routes on the path; returns the HTTP
status, the response body and the list of triggered actions. -/
def calendupe (config_token : String) (request : WebRequest) :
    (Nat × String) × List HookAction :=
  let channel_token := headerGet request.headers "X-Goog-Channel-Token"
  if channel_token = some config_token then
    let path_parts := (stripSlashes request.path).splitOn "/"
    match path_parts with
    | [path] =>
        if path = "subscription" then
          match request.body with
          | some (.obj fields) =>
              match headerGet fields "watched_resource_id" with
              | some rid => ((202, "ok"), [.resubscribe rid])
              | none => ((400, "bad request"), [])
          | _ => ((400, "bad request"), [])
        else if path = "channel" then
          let resource_id := headerGet request.headers "X-Goog-Resource-ID"
          let resource_state := headerGet request.headers "X-Goog-Resource-State"
          let expiry_string := headerGet request.headers "X-Goog-Channel-Expiration"
          if resource_state = some "sync" then
            match expiry_string with
            | some e => ((202, "ok"), [.scheduleRenewal e resource_id])
            | none => ((202, "ok"), [])
          else if resource_state = some "not_exists" then ((202, "ok"), [])
          else if resource_state = some "exists" then ((202, "ok"), [.dispatchUpdate])
          else ((202, "ok"), [])
        else ((404, "'" ++ request.path ++ "' not found"), [])
    | _ => ((404, "'" ++ request.path ++ "' not found"), [])
  else ((401, "unauthorized"), [])

/-- C6: a request whose `X-Goog-Channel-Token` header is absent or different
from the configured secret is answered `401 unauthorized` with no further
processing: the result is the 401 response with no actions, whatever the
path, body and remaining headers are. -/
theorem calendupe_rejects_bad_token (config_token : String) (request : WebRequest)
    (h : headerGet request.headers "X-Goog-Channel-Token" ≠ some config_token) :
    calendupe config_token request = ((401, "unauthorized"), []) := by
  unfold calendupe
  rw [if_neg h]

theorem calendupe_rejects_bad_token_witness :
    headerGet [("X-Goog-Channel-Token", "wrong")] "X-Goog-Channel-Token" ≠ some "secret" ∧
    calendupe "secret"
        ⟨[("X-Goog-Channel-Token", "wrong")], "/channel",
          some (.obj [("watched_resource_id", "r1")])⟩ =
      ((401, "unauthorized"), []) :=
  ⟨by decide,
    calendupe_rejects_bad_token "secret"
      ⟨[("X-Goog-Channel-Token", "wrong")], "/channel",
        some (.obj [("watched_resource_id", "r1")])⟩ (by decide)⟩

/-! ## The GCS lock (`gcs.py` lines 27–54) -/

/-- The error surfaced by the blob store: `NotFound`. -/
inductive GcsErr where
  | notFound : GcsErr
deriving DecidableEq

/-- The bucket's `delete_blob`: removes the named blob, or raises `NotFound`
when it does not exist.  The bucket state is the list of blob names. -/
def delete_blob (store : List String) (blob_name : String) :
    Except GcsErr (List String) :=
  if blob_name ∈ store then .ok (store.erase blob_name) else .error .notFound

/-- Method `GCSLock.release` (`gcs.py` lines 43–53): delete the lock blob; a
`NotFound` is re-raised unless `allow_nonexistent` is set, in which case the
store is left as it is and the call returns normally. -/
def GCSLock_release (store : List String) (blob_name : String)
    (allow_nonexistent : Bool) : Except GcsErr (List String) :=
  match delete_blob store blob_name with
  | .ok store2 => .ok store2
  | .error .notFound =>
      if allow_nonexistent then .ok store else .error .notFound

/-- C7: `release` deletes the lock blob; deleting an existing blob succeeds
regardless of the flag, while an absent blob yields `NotFound` when
`allow_nonexistent` is unset and success (with the store unchanged) when it
is set. -/
theorem GCSLock_release_spec (store : List String) (blob_name : String) :
    (blob_name ∈ store →
      ∀ allow_nonexistent,
        GCSLock_release store blob_name allow_nonexistent =
          .ok (store.erase blob_name)) ∧
    (blob_name ∉ store →
      GCSLock_release store blob_name false = .error .notFound ∧
      GCSLock_release store blob_name true = .ok store) := by
  constructor
  · intro hmem allow_nonexistent
    unfold GCSLock_release delete_blob
    rw [if_pos hmem]
  · intro hno
    unfold GCSLock_release delete_blob
    rw [if_neg hno]
    exact ⟨rfl, rfl⟩

theorem GCSLock_release_spec_witness :
    ("calendupe_lock" ∈ ["calendupe_lock"]) ∧
    GCSLock_release ["calendupe_lock"] "calendupe_lock" false = .ok [] ∧
    ("calendupe_lock" ∉ ([] : List String)) ∧
    GCSLock_release [] "calendupe_lock" false = .error .notFound ∧
    GCSLock_release [] "calendupe_lock" true = .ok [] :=
  ⟨by decide,
    (GCSLock_release_spec ["calendupe_lock"] "calendupe_lock").1 (by decide) false,
    by decide,
    ((GCSLock_release_spec [] "calendupe_lock").2 (by decide)).1,
    ((GCSLock_release_spec [] "calendupe_lock").2 (by decide)).2⟩

/-! ## The renewal scheduler (`main.py` lines 32 and 123–133)

`datetime` values are seconds on an integer timeline. -/

/-- Constant `MAX_CLOUD_TASK_FUTURE = timedelta(days=29, hours=23)`, in seconds. -/
def MAX_CLOUD_TASK_FUTURE : Int := (29 * 24 + 23) * 3600

/-- Function `schedule_resubscribe` (`main.py` lines 123–133): compute
`schedule_time = expiration - 1 hour`; log an error when it is not in the
future; then create the task at `min(schedule_time, now + MAX_CLOUD_TASK_FUTURE)`
unconditionally.  Returns whether the error was logged and the schedule time
of the created task (`some`, since `create_resubscribe_task` is always
reached). -/
def schedule_resubscribe (now expiration : Int) : Bool × Option Int :=
  let schedule_time := expiration - 3600
  let error_logged := decide (schedule_time ≤ now)
  let max_time := now + MAX_CLOUD_TASK_FUTURE
  (error_logged, some (min schedule_time max_time))

/-- C8 counterexample: with `now = 0` and `expiration = 1800`, the renewal
time `expiration - 1h = -1800` is in the past; the error is logged, but a
task is nevertheless still created (scheduled at the past time), so the
renewal is not simply dropped as the claim states. -/
theorem schedule_resubscribe_past_still_creates_task :
    (schedule_resubscribe 0 1800).1 = true ∧
    (schedule_resubscribe 0 1800).2 = some (-1800) ∧
    (schedule_resubscribe 0 1800).2 ≠ none := by
  refine ⟨by decide, ?_, by decide⟩
  show some (min (1800 - 3600) (0 + MAX_CLOUD_TASK_FUTURE)) = some (-1800)
  decide

/-- C8 (amended): the created task's schedule time is always
`min(expiration - 1 hour, now + 29 days 23 hours)`; when `expiration - 1 hour`
is not in the future an error is logged, but the task is still created, at
that past schedule time. -/
theorem schedule_resubscribe_spec (now expiration : Int) :
    (schedule_resubscribe now expiration).2 =
      some (min (expiration - 3600) (now + MAX_CLOUD_TASK_FUTURE)) ∧
    ((schedule_resubscribe now expiration).1 = true ↔ expiration - 3600 ≤ now) ∧
    (schedule_resubscribe now expiration).2 ≠ none := by
  refine ⟨rfl, by simp [schedule_resubscribe], by simp [schedule_resubscribe]⟩

/-! ## `perform_update` (`main.py` lines 48–72, lines 61–65) -/

/-- The argument flow of `perform_update` into `duplicate_events`:
`sync_token = get_stored_sync_token()`;
`config.MIN_END_TIME = config.MIN_END_TIME if sync_token is None else None`;
both are then passed on.  Returns the `(sync_token, min_end_time)` pair
passed to `duplicate_events`. -/
def perform_update_args (stored_sync_token : Option String)
    (configured_min_end_time : Option Int) : Option String × Option Int :=
  let sync_token := stored_sync_token
  let min_end_time := if sync_token = none then configured_min_end_time else none
  (sync_token, min_end_time)

/-- C9: whenever a stored sync token exists, `duplicate_events` is invoked
with `min_end_time = None`; the configured minimum end time is passed only
when there is no stored token. -/
theorem perform_update_min_end_time (configured_min_end_time : Option Int) :
    (∀ t : String,
      perform_update_args (some t) configured_min_end_time = (some t, none)) ∧
    perform_update_args none configured_min_end_time =
      (none, configured_min_end_time) :=
  ⟨fun _ => rfl, rfl⟩

/-- C10: a source event lacking a `status` field is treated as confirmed:
the transform yields status `"confirmed"`, copies `start`/`end`, sets the
fixed summary and description, and disables default reminders. -/
theorem transform_defaults_to_confirmed (src : SourceEvent) (h : src.status = none) :
    dlookup (source_event_to_target_event src) "status" =
      some (.prim (.str "confirmed")) ∧
    dlookup (source_event_to_target_event src) "start" = some src.start ∧
    dlookup (source_event_to_target_event src) "end" = some src.«end» ∧
    dlookup (source_event_to_target_event src) "summary" =
      some (.prim (.str DEFAULT_TARGET_EVENT_NAME)) ∧
    dlookup (source_event_to_target_event src) "description" =
      some (.prim (.str DEFAULT_TARGET_EVENT_DESCRIPTION)) ∧
    dlookup (source_event_to_target_event src) "reminders" =
      some (.obj [("useDefault", .bool false), ("overrides", .strList [])]) := by
  refine ⟨?_, ?_, ?_, ?_, ?_, ?_⟩ <;>
    rcases hr : src.recurrence with _ | rec <;>
      simp [source_event_to_target_event, source_event_to_target_event_w, h, hr,
        remindersOff, extProps, dlookup_dset_self, dlookup_dset_ne, dlookup, dset]

theorem transform_defaults_to_confirmed_witness :
    wSrc.status = none ∧
    dlookup (source_event_to_target_event wSrc) "status" =
      some (.prim (.str "confirmed")) ∧
    dlookup (source_event_to_target_event wSrc) "start" = some wSrc.start :=
  ⟨rfl, (transform_defaults_to_confirmed wSrc rfl).1,
    (transform_defaults_to_confirmed wSrc rfl).2.1⟩
